import Mathlib

/-!
Verification development for the EzyVet API client library
(`ezyvetapi/main.py`, `ezyvetapi/models/appointments.py`).

The definitions below are a shallow embedding of the Python source:
Python dicts become association lists over a `PyVal` value model, in-place
mutation of caller-supplied dicts is made explicit by returning the
caller-visible dict alongside the function's result, network / database
collaborators become function parameters, and fallible code returns
`Option` / `Except`.
-/

set_option maxRecDepth 4000

namespace EzyVet

/-! ## Python value model (dict / list / scalar values of query parameters) -/

/-- Model of a Python value as it appears in request-parameter dicts:
scalars (string, int, bool), nested dicts and lists. -/
inductive PyVal : Type where
  | str (s : String) : PyVal
  | int (n : Int) : PyVal
  | bool (b : Bool) : PyVal
  | dict (entries : List (String × PyVal)) : PyVal
  | list (elems : List PyVal) : PyVal

/-- A Python dict with string keys, modelled as an association list in
insertion order (Python 3 dicts preserve insertion order). -/
abbrev PyDict := List (String × PyVal)

/-- Dict read `d[k]`: first entry whose key is `k`, `none` models `KeyError`. -/
def dictGet {κ β : Type} [DecidableEq κ] (k : κ) : List (κ × β) → Option β
  | [] => none
  | (k', v) :: rest => if k' = k then some v else dictGet k rest

/-- Dict write `d[k] = v`: replaces the value in place if the key exists
(keeping its position, as Python dicts do), otherwise appends the entry. -/
def setKey {κ β : Type} [DecidableEq κ] (p : List (κ × β)) (k : κ) (v : β) :
    List (κ × β) :=
  match p with
  | [] => [(k, v)]
  | (k', v') :: rest => if k' = k then (k, v) :: rest else (k', v') :: setKey rest k v

/-- JSON string escaping used by `json.dumps` for the characters that can
occur in this client's parameter values (quote and backslash). -/
def escapeJson (s : String) : String :=
  String.join (s.toList.map fun c =>
    if c = '"' then "\\\"" else if c = '\\' then "\\\\" else String.singleton c)

mutual

/-- Model of Python `json.dumps` with its default separators
(`", "` between items, `": "` after keys). -/
def jsonDumps : PyVal → String
  | .str s => "\"" ++ escapeJson s ++ "\""
  | .int n => toString n
  | .bool b => if b then "true" else "false"
  | .dict es => "\x7b" ++ jsonDumpsEntries es ++ "\x7d"
  | .list vs => "[" ++ jsonDumpsElems vs ++ "]"

/-- Comma-separated rendering of the entries of a JSON object. -/
def jsonDumpsEntries : List (String × PyVal) → String
  | [] => ""
  | [(k, v)] => "\"" ++ escapeJson k ++ "\": " ++ jsonDumps v
  | (k, v) :: rest =>
      "\"" ++ escapeJson k ++ "\": " ++ jsonDumps v ++ ", " ++ jsonDumpsEntries rest

/-- Comma-separated rendering of the elements of a JSON array. -/
def jsonDumpsElems : List PyVal → String
  | [] => ""
  | [v] => jsonDumps v
  | v :: rest => jsonDumps v ++ ", " ++ jsonDumpsElems rest

end

/-- Scalar test: `True` unless the value is a dict or a list
(mirrors `isinstance(value, dict) or isinstance(value, list)` negated). -/
def isScalar : PyVal → Bool
  | .dict _ => false
  | .list _ => false
  | _ => true

/-- Value translation performed by the `_build_params` output loop:
dict and list values are rendered to a JSON string, scalars pass through. -/
def encodeParamValue (v : PyVal) : PyVal :=
  match v with
  | .dict es => .str (jsonDumps (.dict es))
  | .list vs => .str (jsonDumps (.list vs))
  | v => v

/-- Shallow embedding of `EzyVetApi._build_params` (main.py lines 197-218).

`params` is the caller's dict (`none` models Python `None`).  The first
component is the method's return value: `limit` set to `200` on the incoming
dict (a fresh `{limit: 200}` dict when `params` is `None` or empty, i.e.
falsy), then every entry copied into a new dict with dict/list values
JSON-encoded.  The second component is the dict the caller's variable still
references after the call, making the in-place `params['limit'] = 200`
mutation explicit: the caller's dict is mutated only when it was non-empty. -/
def build_params (params : Option PyDict) : PyDict × Option PyDict :=
  let p' : PyDict :=
    match params with
    | some p => if p.isEmpty then [("limit", .int 200)] else setKey p "limit" (.int 200)
    | none => [("limit", .int 200)]
  let callerAfter : Option PyDict :=
    match params with
    | some p => if p.isEmpty then some p else some p'
    | none => none
  (p'.map (fun kv => (kv.1, encodeParamValue kv.2)), callerAfter)

/-- Shallow embedding of `EzyVetApi._set_headers` (main.py lines 257-274).

Adds `Authorization: Bearer <token>` to the caller's headers dict when one
was supplied and non-empty (truthy); otherwise builds a fresh dict holding
only the Authorization header.  The second component is the dict the caller
still references after the call. -/
def set_headers (access_token : String) (headers : Option PyDict) :
    PyDict × Option PyDict :=
  let bearer : PyVal := .str ("Bearer " ++ access_token)
  match headers with
  | some h =>
      if h.isEmpty then ([("Authorization", bearer)], some h)
      else (setKey h "Authorization" bearer, some (setKey h "Authorization" bearer))
  | none => ([("Authorization", bearer)], none)

/-! ## Datetime model and the date-range filter builder -/

/-- Model of a Python `datetime.datetime` down to second precision
(the code under study never touches microseconds: `timetuple()` drops them
and the zero-time-of-day test sums only hour, minute and second). -/
structure PyDateTime : Type where
  year : Int
  month : Nat
  day : Nat
  hour : Nat
  minute : Nat
  second : Nat
deriving DecidableEq, Repr

/-- Day count since 1970-01-01 of a proleptic-Gregorian civil date, the
standard era-based calendar formula (as used by Python's date ordinal,
shifted to the Unix epoch). -/
def daysFromCivil (y0 : Int) (m : Nat) (d : Nat) : Int :=
  let y : Int := if m ≤ 2 then y0 - 1 else y0
  let era : Int := (if 0 ≤ y then y else y - 399) / 400
  let yoe : Int := y - era * 400
  let mp : Int := ((m : Int) + 9) % 12
  let doy : Int := (153 * mp + 2) / 5 + (d : Int) - 1
  let doe : Int := yoe * 365 + yoe / 4 - yoe / 100 + doy
  era * 146097 + doe - 719468

/-- Inverse of `daysFromCivil`: the civil date of a day count since
1970-01-01 (year, month, day). -/
def civilFromDays (z0 : Int) : Int × Nat × Nat :=
  let z : Int := z0 + 719468
  let era : Int := (if 0 ≤ z then z else z - 146096) / 146097
  let doe : Int := z - era * 146097
  let yoe : Int := (doe - doe / 1460 + doe / 36524 - doe / 146096) / 365
  let y : Int := yoe + era * 400
  let doy : Int := doe - (365 * yoe + yoe / 4 - yoe / 100)
  let mp : Int := (5 * doy + 2) / 153
  let d : Int := doy - (153 * mp + 2) / 5 + 1
  let m : Int := mp + (if mp < 10 then 3 else -9)
  (y + (if m ≤ 2 then 1 else 0), m.toNat, d.toNat)

/-- Model of `dt + datetime.timedelta(days=n)`: calendar-exact day addition,
keeping the time of day.  Subtraction of a timedelta is `addDays dt (-n)`. -/
def addDays (dt : PyDateTime) (n : Int) : PyDateTime :=
  let c := civilFromDays (daysFromCivil dt.year dt.month dt.day + n)
  ⟨c.1, c.2.1, c.2.2, dt.hour, dt.minute, dt.second⟩

/-- Model of `time.mktime(dt.timetuple())`: Unix epoch seconds of the civil
tuple.  Local time is modelled as a fixed zero offset (the source relies on
ambient local-time semantics with no timezone normalization). -/
def mktime (dt : PyDateTime) : Int :=
  daysFromCivil dt.year dt.month dt.day * 86400
    + (dt.hour : Int) * 3600 + (dt.minute : Int) * 60 + (dt.second : Int)

/-- End-date normalization of `_build_date_filter` (main.py lines 384-389):
when `hour + minute + second == 0` the end date becomes 23:59:59 of the
same day, so that the end date is inclusive of the full day. -/
def normalizeEndDate (ed : PyDateTime) : PyDateTime :=
  if ed.hour + ed.minute + ed.second = 0 then
    { ed with hour := 23, minute := 59, second := 59 }
  else ed

/-- The filter expression `_build_date_filter` puts under the field name. -/
inductive DateExpr : Type where
  | gtOnly (gt : Int) : DateExpr
  | ltOnly (lt : Int) : DateExpr
  | gtLte (gt lte : Int) : DateExpr
deriving DecidableEq, Repr

/-- The two exceptions `_build_date_filter` can raise. -/
inductive DateFilterError : Type where
  | startEndAndDaysSet : DateFilterError
  | missingStartAndEndDate : DateFilterError
deriving DecidableEq, Repr

/-- Python truthiness of the `days` argument (`days: int = 0` default, the
callers pass `None` when unset): falsy when absent or zero. -/
def truthyDays : Option Int → Bool
  | none => false
  | some d => decide (d ≠ 0)

/-- Shallow embedding of `EzyVetApi._build_date_filter`
(main.py lines 353-415).  Returns the filter dict as
(field name, filter expression), or the raised exception. -/
def build_date_filter (filter_field : String) (start_date : Option PyDateTime)
    (end_date : Option PyDateTime) (days : Option Int) :
    Except DateFilterError (String × DateExpr) :=
  let end_date : Option PyDateTime := end_date.map normalizeEndDate
  match start_date, end_date with
  | some sd, none =>
      let start_timestamp := mktime sd
      if truthyDays days then
        let ed := addDays sd (days.getD 0)
        .ok (filter_field, .gtLte start_timestamp (mktime ed))
      else
        .ok (filter_field, .gtOnly start_timestamp)
  | none, some ed =>
      let end_timestamp := mktime ed
      if truthyDays days then
        let sd := addDays ed (-(days.getD 0))
        .ok (filter_field, .gtLte (mktime sd) end_timestamp)
      else
        .ok (filter_field, .ltOnly end_timestamp)
  | some sd, some ed =>
      if truthyDays days then
        .error .startEndAndDaysSet
      else
        .ok (filter_field, .gtLte (mktime sd) (mktime ed))
  | none, none => .error .missingStartAndEndDate

/-- Rendering of a date filter expression as the Python dict value that
`get_date_range` merges into `params`. -/
def dateExprToVal : DateExpr → PyVal
  | .gtOnly g => .dict [("gt", .int g)]
  | .ltOnly l => .dict [("lt", .int l)]
  | .gtLte g le => .dict [("gt", .int g), ("lte", .int le)]

/-- Shallow embedding of the parameter-merging step of
`EzyVetApi.get_date_range` (main.py lines 96-101), before delegation to
`get`: the date filter is built, then merged into the caller's `params`
dict in place when one was passed (`params.update(...)` mutates any dict,
empty or not), else a fresh dict is used.  First component: the params
passed on to `get`; second: the dict the caller still references. -/
def get_date_range_params (date_filter_field : String) (params : Option PyDict)
    (start_date end_date : Option PyDateTime) (days : Option Int) :
    Except DateFilterError (PyDict × Option PyDict) :=
  match build_date_filter date_filter_field start_date end_date days with
  | .error e => .error e
  | .ok (f, expr) =>
      match params with
      | some p =>
          let p' := setKey p f (dateExprToVal expr)
          .ok (p', some p')
      | none => .ok ([(f, dateExprToVal expr)], none)

/-! ## Credential resolution -/

/-- A row of `ezy_vet_credentials` as read by `_get_api_credentials`,
together with the server-reported `now() as system_time` column.
Timestamps are modelled as epoch seconds; `access_token` is `none` for a
database NULL (Python `None`). -/
structure CredRow : Type where
  access_token : Option String
  access_token_create_time : Int
  system_time : Int
deriving DecidableEq, Repr

/-- One `UPDATE ... SET access_token=%s, access_token_create_time=%s WHERE
location_id=%s` issued against the credential store. -/
structure CredWrite : Type where
  access_token : String
  access_token_create_time : Int
  location_id : Int
deriving DecidableEq, Repr

/-- The `MissingEzyVetCredentials` exception. -/
inductive CredError : Type where
  | missingEzyVetCredentials : CredError
deriving DecidableEq, Repr

/-- Python truthiness of `credentials['access_token']`: falsy when NULL or
the empty string. -/
def tokenTruthy : Option String → Bool
  | none => false
  | some s => decide (s ≠ "")

/-- Shallow embedding of `EzyVetApi._get_api_credentials`
(main.py lines 220-255).  `rows` is the result set of the SELECT for the
location; `get_access_token` is the injected token issuer.  On success the
result carries the (possibly refreshed) credential row, the list of store
writes issued, and the number of token-issuer calls made.
`cache_limit` is in minutes and timestamps in seconds, mirroring
`timedelta(minutes=cache_limit)`. -/
def get_api_credentials (location_id : Int) (cache_limit : Int)
    (rows : List CredRow) (get_access_token : CredRow → String) :
    Except CredError (CredRow × List CredWrite × Nat) :=
  match rows with
  | [] => .error .missingEzyVetCredentials
  | credentials :: _ =>
      let system_time := credentials.system_time
      let expire_date := system_time - cache_limit * 60
      if tokenTruthy credentials.access_token = false
          ∨ expire_date > credentials.access_token_create_time then
        let tok := get_access_token credentials
        let credentials' := { credentials with access_token := some tok }
        .ok (credentials', [⟨tok, system_time, location_id⟩], 1)
      else
        .ok (credentials, [], 0)

/-! ## Transport: `_call_api` -/

/-- An HTTP response as seen by `_call_api`: status code, raw body text,
and the decoded JSON body. -/
structure HttpResponse (α : Type) : Type where
  status_code : Int
  text : String
  json : α

/-- The `EzyVetAPIError` raised after a failed retry, carrying the retry's
status code and response body. -/
structure ApiError : Type where
  status_code : Int
  text : String
deriving DecidableEq, Repr

/-- Observable side effects of `_call_api`, in order: each `requests.get`
and each `time.sleep(seconds)`. -/
inductive CallEvent : Type where
  | httpGet : CallEvent
  | sleepFor (seconds : Int) : CallEvent
deriving DecidableEq, Repr

/-- Shallow embedding of `EzyVetApi._call_api` (main.py lines 328-351).
`request n` is the response to the (n+1)-th `requests.get` of this call;
`retry_sleep_time` is the configured `server_retry_sleep_time`.  Returns
the JSON body or the raised `EzyVetAPIError`, together with the event
trace. -/
def call_api {α : Type} (retry_sleep_time : Int)
    (request : Nat → HttpResponse α) : Except ApiError α × List CallEvent :=
  let res := request 0
  if res.status_code ≠ 200 then
    let res2 := request 1
    if res2.status_code ≠ 200 then
      (.error ⟨res2.status_code, res2.text⟩,
       [.httpGet, .sleepFor retry_sleep_time, .httpGet])
    else
      (.ok res2.json, [.httpGet, .sleepFor retry_sleep_time, .httpGet])
  else
    (.ok res.json, [.httpGet])

/-! ## Pagination: `_get_data_from_api` -/

/-- The `meta` object of a page envelope.  `items_total` is `none` when the
key is absent from the response. -/
structure PageMeta : Type where
  items_total : Option Nat
  items_page_total : Nat
  items_page_size : Nat
deriving DecidableEq, Repr

/-- A page envelope: `meta` plus the ordered `items` list, each item being
a JSON object (modelled as an association list) wrapping one record. -/
structure Page (α : Type) : Type where
  meta : PageMeta
  items : List (List (String × α))
deriving DecidableEq

/-- Split of a character list on a separator, mirroring Python
`str.split(sep)` (the list of groups between separators, empty groups
kept). -/
def splitOnChar (sep : Char) : List Char → List (List Char)
  | [] => [[]]
  | c :: rest =>
      let r := splitOnChar sep rest
      if c = sep then [] :: r
      else
        match r with
        | [] => [[c]]
        | g :: gs => (c :: g) :: gs

/-- Model of `endpoint.split('/')[1]`: the resource-name component of an
endpoint such as `v2/appointment`; `none` models the `IndexError` when the
endpoint has no `/`. -/
def endpointResource (endpoint : String) : Option String :=
  ((splitOnChar '/' endpoint.toList).map (fun l => String.mk l))[1]?

/-- Unwrapping loop `[x[resource_key] for x in output]`: looks the resource
key up in every item's envelope; `none` models the `KeyError` raised at the
first item missing the key. -/
def unwrapItems {α : Type} (key : String) :
    List (List (String × α)) → Option (List α)
  | [] => some []
  | it :: rest =>
      match dictGet key it, unwrapItems key rest with
      | some v, some vs => some (v :: vs)
      | _, _ => none

/-- Result of `_get_data_from_api`: the `False` sentinel returned when
`items_total` is missing or the first page has no items, the flat record
list on success, or a key/index error from the unwrap step. -/
inductive GetData (α : Type) : Type where
  | noData : GetData α
  | keyErr : GetData α
  | records (xs : List α) : GetData α
deriving DecidableEq

/-- Shallow embedding of `EzyVetApi._get_data_from_api`
(main.py lines 276-326).  `call_api_fn p` is the page envelope returned by
the injected `call_api` for the request whose params carry `page = p`
(`none` for the initial request, which has no `page` key).  The second
component is the trace of requests issued, as their `page` values in
order. -/
def get_data_from_api {α : Type} (endpoint : String)
    (call_api_fn : Option Nat → Page α) : GetData α × List (Option Nat) :=
  let data := call_api_fn none
  match data.meta.items_total with
  | none => (.noData, [none])
  | some _ =>
      let pages := data.meta.items_page_total
      if data.items.length = 0 then (.noData, [none])
      else
        let pageNums := List.range' 2 (pages - 1)
        let trace := none :: pageNums.map some
        let output := data.items
          ++ pageNums.flatMap (fun p => (call_api_fn (some p)).items)
        match endpointResource endpoint with
        | none => (.keyErr, trace)
        | some key =>
            match unwrapItems key output with
            | none => (.keyErr, trace)
            | some xs => (.records xs, trace)

/-! ## Batched-by-ID retrieval: `get_by_ids` -/

/-- The filter value `{'in': chunk}` placed under the `id` key. -/
def idInFilter (chunk : List Int) : PyVal :=
  .dict [("in", .list (chunk.map PyVal.int))]

/-- The slicing loop `for x in range(0, len(ids), 100): ids[x:x+100]`:
consecutive chunks of at most 100 IDs, in order. -/
def chunks100 (ids : List Int) : List (List Int) :=
  if ids.isEmpty then []
  else ids.take 100 :: chunks100 (ids.drop 100)
termination_by ids.length
decreasing_by
  simp only [List.length_drop]
  cases ids with
  | nil => simp [List.isEmpty] at *
  | cons a l => simp; omega

/-- The per-chunk params update of `get_by_ids` (main.py lines 132-135):
`params['id'] = {'in': chunk}` on a truthy dict, else a fresh
`{'id': {'in': chunk}}` dict. -/
def mergeIdParams (params : Option PyDict) (chunk : List Int) : PyDict :=
  match params with
  | some p => if p.isEmpty then [("id", idInFilter chunk)]
              else setKey p "id" (idInFilter chunk)
  | none => [("id", idInFilter chunk)]

/-- The chunk loop of `get_by_ids`: issues one `get` per chunk with the
merged params (the local `params` variable is rebound to the merged dict
and threaded to the next iteration), concatenating batch results in order.
Returns the concatenated records and the final value of the local `params`
variable. -/
def getByIdsGo {α : Type} (get : PyDict → List α) :
    List (List Int) → Option PyDict → List α × Option PyDict
  | [], params => ([], params)
  | c :: rest, params =>
      let p' := mergeIdParams params c
      let batch := get p'
      let r := getByIdsGo get rest (some p')
      (batch ++ r.1, r.2)

/-- Shallow embedding of `EzyVetApi.get_by_ids` (main.py lines 103-141).
`ids` is an int or a list of ints, as in the source; `get` is the injected
`self.get` returning the records of one call.  First component: the
concatenated records of every chunk (DataFrame concatenation preserves
order; the record-dict round trip is elided).  Second component: the dict
the caller's `params` variable still references after the call — mutated
only when the caller passed a truthy (non-empty) dict, since a falsy one is
replaced by a fresh local dict inside the loop. -/
def get_by_ids {α : Type} (ids : Int ⊕ List Int) (params : Option PyDict)
    (get : PyDict → List α) : List α × Option PyDict :=
  let l : List Int :=
    match ids with
    | .inl n => [n]
    | .inr l => l
  let r := getByIdsGo get (chunks100 l) params
  let callerAfter : Option PyDict :=
    match params with
    | some p => if p.isEmpty then some p else r.2
    | none => none
  (r.1, callerAfter)

/-! ## Appointments transform: `_create_is_medical_column` -/

/-- One row of the appointments table as far as `_create_is_medical_column`
reads or writes it: the preserved numeric `appt_type_id`, the `is_medical`
column it assigns, and the untouched remainder of the row. -/
structure ApptRow (α : Type) : Type where
  appt_type_id : Int
  is_medical : Int
  rest : α
deriving DecidableEq, Repr

/-- The `self._is_medical` table of `Appointments.__init__`
(appointments.py lines 26-33): per-location medical appointment-type
allow-lists. -/
def isMedicalTable : List (Int × List Int) :=
  [(2, [18, 26, 27, 28, 31, 32, 33, 34, 35, 37, 39, 40, 41, 56, 59, 60]),
   (3, [18, 23, 28, 29, 30, 32, 33, 34, 35, 36, 37, 38, 40, 59, 60, 61]),
   (4, []),
   (5, [18, 26, 27, 28, 31, 32, 33, 34, 35, 39, 91, 104, 107, 109, 110, 111]),
   (6, [18, 26, 27, 28, 29, 30, 31, 32, 33, 34, 39, 40, 42, 55, 56, 57, 63, 64]),
   (7, [18, 42, 43, 46, 56, 59, 60, 62, 65, 67, 68, 70, 72, 74, 76, 78]),
   (8, [18, 43, 47, 54, 55, 56, 57, 58, 59, 60, 61, 62, 63, 65, 66, 67])]

/-- Shallow embedding of `Appointments._create_is_medical_column`
(appointments.py lines 200-206): sets `is_medical` to 0 on every row, then
to 1 on the rows whose `appt_type_id` is in the location's allow-list (and
whose `is_medical` is still 0, as the mask requires).  `none` models the
`KeyError` on a location missing from the table. -/
def create_is_medical_column {α : Type} (location_id : Int)
    (rows : List (ApptRow α)) : Option (List (ApptRow α)) :=
  match dictGet location_id isMedicalTable with
  | none => none
  | some allow =>
      let rows0 := rows.map (fun r => { r with is_medical := 0 })
      some (rows0.map (fun r =>
        if r.appt_type_id ∈ allow ∧ r.is_medical = 0 then
          { r with is_medical := 1 }
        else r))

/-! ## Helper lemmas on the dict model -/

theorem dictGet_map_snd {κ β γ : Type} [DecidableEq κ] (k : κ) (f : β → γ)
    (p : List (κ × β)) :
    dictGet k (p.map fun kv => (kv.1, f kv.2)) = (dictGet k p).map f := by
  induction p with
  | nil => rfl
  | cons kv rest ih =>
      obtain ⟨k', v⟩ := kv
      by_cases h : k' = k <;> simp [dictGet, h, ih]

theorem dictGet_setKey_self {κ β : Type} [DecidableEq κ] (p : List (κ × β))
    (k : κ) (v : β) : dictGet k (setKey p k v) = some v := by
  induction p with
  | nil => simp [setKey, dictGet]
  | cons kv rest ih =>
      obtain ⟨k', v'⟩ := kv
      by_cases h : k' = k <;> simp [setKey, dictGet, h, ih]

theorem dictGet_setKey_ne {κ β : Type} [DecidableEq κ] (p : List (κ × β))
    (k k' : κ) (v : β) (h : k' ≠ k) :
    dictGet k' (setKey p k v) = dictGet k' p := by
  induction p with
  | nil => simp [setKey, dictGet, Ne.symm h]
  | cons kv rest ih =>
      obtain ⟨k0, v0⟩ := kv
      by_cases h0 : k0 = k
      · subst h0
        simp [setKey, dictGet, Ne.symm h]
      · by_cases h1 : k0 = k' <;> simp [setKey, dictGet, h0, h1, h, ih]

theorem dictGet_mem {κ β : Type} [DecidableEq κ] (p : List (κ × β)) (k : κ)
    (v : β) (h : dictGet k p = some v) : (k, v) ∈ p := by
  induction p with
  | nil => simp [dictGet] at h
  | cons kv rest ih =>
      obtain ⟨k', v'⟩ := kv
      by_cases h0 : k' = k
      · subst h0
        simp [dictGet] at h
        simp [h]
      · simp [dictGet, h0] at h
        simp [ih h]

theorem setKey_setKey_self {κ β : Type} [DecidableEq κ] (p : List (κ × β))
    (k : κ) (v v' : β) : setKey (setKey p k v) k v' = setKey p k v' := by
  induction p with
  | nil => simp [setKey]
  | cons kv rest ih =>
      obtain ⟨k0, v0⟩ := kv
      by_cases h : k0 = k <;> simp [setKey, h, ih]

theorem setKey_isEmpty_false {κ β : Type} [DecidableEq κ] (p : List (κ × β))
    (k : κ) (v : β) : (setKey p k v).isEmpty = false := by
  cases p with
  | nil => simp [setKey]
  | cons kv rest =>
      obtain ⟨k0, v0⟩ := kv
      by_cases h : k0 = k <;> simp [setKey, h]

theorem encodeParamValue_scalar (v : PyVal) (h : isScalar v = true) :
    encodeParamValue v = v := by
  cases v <;> simp [isScalar] at h <;> simp [encodeParamValue]

theorem encodeParamValue_eq_ite (v : PyVal) :
    encodeParamValue v = if isScalar v then v else .str (jsonDumps v) := by
  cases v <;> simp [encodeParamValue, isScalar]

/-! ## Claim theorems: transport, credentials, date filter -/

/-- C4: for every GET issued by `_call_api`, a non-200 status triggers
exactly one retry after the fixed configured sleep, uniformly for every
non-200 status with no backoff; a second non-200 fails with an API error
carrying the retry's status code and body; a 200 on either attempt returns
that attempt's JSON body. -/
theorem call_api_retry_policy {α : Type} (retry_sleep_time : Int)
    (request : Nat → HttpResponse α) :
    ((request 0).status_code = 200 →
      call_api retry_sleep_time request = (.ok (request 0).json, [.httpGet]))
    ∧ ((request 0).status_code ≠ 200 → (request 1).status_code = 200 →
      call_api retry_sleep_time request
        = (.ok (request 1).json,
           [.httpGet, .sleepFor retry_sleep_time, .httpGet]))
    ∧ ((request 0).status_code ≠ 200 → (request 1).status_code ≠ 200 →
      call_api retry_sleep_time request
        = (.error ⟨(request 1).status_code, (request 1).text⟩,
           [.httpGet, .sleepFor retry_sleep_time, .httpGet])) := by
  refine ⟨fun h0 => ?_, fun h0 h1 => ?_, fun h0 h1 => ?_⟩
  · simp [call_api, h0]
  · simp [call_api, h0, h1]
  · simp [call_api, h0, h1]

/-- Witness for C4 at concrete responses: a 200 first try, a 500 then 200,
and a 503 twice. -/
theorem call_api_retry_policy_witness :
    call_api 30 (fun _ => HttpResponse.mk 200 "ok" (7 : Nat))
      = (.ok 7, [.httpGet])
    ∧ call_api 30 (fun n => if n = 0 then HttpResponse.mk 500 "boom" (0 : Nat)
        else HttpResponse.mk 200 "ok" 7)
      = (.ok 7, [.httpGet, .sleepFor 30, .httpGet])
    ∧ call_api 30 (fun _ => HttpResponse.mk 503 "down" (0 : Nat))
      = (.error ⟨503, "down"⟩, [.httpGet, .sleepFor 30, .httpGet]) := by
  refine ⟨?_, ?_, ?_⟩
  · exact (call_api_retry_policy 30 _).1 rfl
  · exact (call_api_retry_policy 30 _).2.1 (by decide) rfl
  · exact (call_api_retry_policy 30 _).2.2 (by decide) (by decide)

/-- C2: credential resolution for a location that has a credential record:
with a truthy cached token no older than `system_time` minus the cache TTL,
no token refresh and no store write happen and the cached row is returned
unchanged; with an absent/falsy token or one strictly older than the
threshold, exactly one refresh and exactly one store write happen, the
write persists the new token with the server-observed `system_time` as the
creation time keyed by `location_id`, and the returned row carries the
refreshed token. -/
theorem get_api_credentials_cache (location_id cache_limit : Int)
    (c : CredRow) (rest : List CredRow) (tok : CredRow → String) :
    (tokenTruthy c.access_token = true →
      c.system_time - cache_limit * 60 ≤ c.access_token_create_time →
      get_api_credentials location_id cache_limit (c :: rest) tok
        = .ok (c, [], 0))
    ∧ ((tokenTruthy c.access_token = false
        ∨ c.system_time - cache_limit * 60 > c.access_token_create_time) →
      get_api_credentials location_id cache_limit (c :: rest) tok
        = .ok ({ c with access_token := some (tok c) },
               [⟨tok c, c.system_time, location_id⟩], 1)) := by
  constructor
  · intro h1 h2
    rw [get_api_credentials, if_neg]
    push_neg
    exact ⟨by simp [h1], by omega⟩
  · intro h
    rw [get_api_credentials, if_pos h]

/-- Witness for C2 at concrete rows: a fresh token (age within a 10 minute
TTL) is returned with no write; a stale token is refreshed with one write
recording the new token, the server time 1100 and location 7. -/
theorem get_api_credentials_cache_witness :
    get_api_credentials 7 10 [⟨some "cached", 1000, 1100⟩] (fun _ => "fresh")
      = .ok (⟨some "cached", 1000, 1100⟩, [], 0)
    ∧ get_api_credentials 7 10 [⟨some "old", 100, 1100⟩] (fun _ => "fresh")
      = .ok (⟨some "fresh", 100, 1100⟩, [⟨"fresh", 1100, 7⟩], 1) := by
  constructor
  · exact (get_api_credentials_cache 7 10 ⟨some "cached", 1000, 1100⟩ []
      (fun _ => "fresh")).1 (by decide) (by decide)
  · exact (get_api_credentials_cache 7 10 ⟨some "old", 100, 1100⟩ []
      (fun _ => "fresh")).2 (Or.inr (by decide))

/-- C3: `_build_date_filter` behaviour over every argument combination,
with `days` "set" meaning truthy (the Python default is `0`): a midnight
end date is normalized to 23:59:59 of the same day; start only gives a
`gt` filter; start plus days a `gt`/`lte` range up to `start + days`; end
only an `lt` filter; end plus days a `gt`/`lte` range from `end − days`;
both dates a `gt`/`lte` range; both dates plus days raises
`StartEndAndDaysSet`; neither raises `MissingStartAndEndDate`.  Timestamps
are `mktime` epoch seconds of the local-time tuple. -/
theorem build_date_filter_spec (f : String) (sd ed : PyDateTime) (d : Int)
    (hd : d ≠ 0) :
    (build_date_filter f (some sd) none none = .ok (f, .gtOnly (mktime sd)))
    ∧ (build_date_filter f (some sd) none (some d)
        = .ok (f, .gtLte (mktime sd) (mktime (addDays sd d))))
    ∧ (build_date_filter f none (some ed) none
        = .ok (f, .ltOnly (mktime (normalizeEndDate ed))))
    ∧ (build_date_filter f none (some ed) (some d)
        = .ok (f, .gtLte (mktime (addDays (normalizeEndDate ed) (-d)))
                         (mktime (normalizeEndDate ed))))
    ∧ (build_date_filter f (some sd) (some ed) none
        = .ok (f, .gtLte (mktime sd) (mktime (normalizeEndDate ed))))
    ∧ (build_date_filter f (some sd) (some ed) (some d)
        = .error .startEndAndDaysSet)
    ∧ (∀ d0 : Option Int,
        build_date_filter f none none d0 = .error .missingStartAndEndDate)
    ∧ (ed.hour = 0 ∧ ed.minute = 0 ∧ ed.second = 0 →
        normalizeEndDate ed = { ed with hour := 23, minute := 59, second := 59 })
    ∧ (¬(ed.hour = 0 ∧ ed.minute = 0 ∧ ed.second = 0) →
        normalizeEndDate ed = ed) := by
  refine ⟨?_, ?_, ?_, ?_, ?_, ?_, ?_, ?_, ?_⟩
  · simp [build_date_filter, truthyDays]
  · simp [build_date_filter, truthyDays, hd]
  · simp [build_date_filter, truthyDays]
  · simp [build_date_filter, truthyDays, hd]
  · simp [build_date_filter, truthyDays]
  · simp [build_date_filter, truthyDays, hd]
  · intro d0
    cases d0 <;> simp [build_date_filter]
  · intro h
    simp [normalizeEndDate, h]
  · intro h
    rw [normalizeEndDate, if_neg]
    omega

/-- Witness for C3 at the spec's concrete dates: 2021-01-01 with 5 days
gives the range up to 2021-01-06; a midnight end date 2021-01-01 gives
`lt` of 2021-01-01 23:59:59; both dates plus days and neither date fail. -/
theorem build_date_filter_spec_witness :
    build_date_filter "modified_at" (some ⟨2021, 1, 1, 0, 0, 0⟩) none (some 5)
      = .ok ("modified_at", .gtLte 1609459200 1609891200)
    ∧ build_date_filter "modified_at" none (some ⟨2021, 1, 1, 0, 0, 0⟩) none
      = .ok ("modified_at", .ltOnly 1609545599)
    ∧ build_date_filter "modified_at" (some ⟨2021, 1, 1, 0, 0, 0⟩)
        (some ⟨2021, 1, 2, 0, 0, 0⟩) (some 5)
      = .error .startEndAndDaysSet
    ∧ build_date_filter "modified_at" none none none
      = .error .missingStartAndEndDate := by
  have h1 := build_date_filter_spec "modified_at" ⟨2021, 1, 1, 0, 0, 0⟩
    ⟨2021, 1, 1, 0, 0, 0⟩ 5 (by decide)
  have h2 := build_date_filter_spec "modified_at" ⟨2021, 1, 1, 0, 0, 0⟩
    ⟨2021, 1, 2, 0, 0, 0⟩ 5 (by decide)
  refine ⟨?_, ?_, ?_, ?_⟩
  · rw [h1.2.1]; rfl
  · rw [h1.2.2.1]; rfl
  · exact h2.2.2.2.2.2.1
  · exact h1.2.2.2.2.2.2.1 none

/-! ## Helper lemmas on unwrapping -/

theorem unwrapItems_append {α : Type} (key : String)
    (a b : List (List (String × α))) (xs ys : List α)
    (ha : unwrapItems key a = some xs) (hb : unwrapItems key b = some ys) :
    unwrapItems key (a ++ b) = some (xs ++ ys) := by
  induction a generalizing xs with
  | nil =>
      simp [unwrapItems] at ha
      subst ha
      exact hb
  | cons it rest ih =>
      rw [unwrapItems] at ha
      cases hit : dictGet key it with
      | none => rw [hit] at ha; simp at ha
      | some v =>
          rw [hit] at ha
          cases hrest : unwrapItems key rest with
          | none => rw [hrest] at ha; simp at ha
          | some vs =>
              rw [hrest] at ha
              simp at ha
              subst ha
              rw [List.cons_append, unwrapItems, hit, ih vs hrest]
              rfl

theorem unwrapItems_flatMap {α : Type} (key : String)
    (pages : Nat → List (List (String × α))) (u : Nat → List α) (ns : List Nat)
    (h : ∀ n ∈ ns, unwrapItems key (pages n) = some (u n)) :
    unwrapItems key (ns.flatMap pages) = some (ns.flatMap u) := by
  induction ns with
  | nil => rfl
  | cons n rest ih =>
      rw [List.flatMap_cons, List.flatMap_cons]
      exact unwrapItems_append key _ _ _ _ (h n (by simp))
        (ih fun m hm => h m (by simp [hm]))

/-! ## Claim theorems: pagination -/

/-- C1: when the first page carries `items_total`, reports
`items_page_total = N ≥ 2` and has a non-empty items list, and every item
unwraps under the resource component of the endpoint,
`_get_data_from_api` issues exactly one additional request per page number
2..N in strictly ascending order, concatenates page items in exactly the
order received, unwraps each item from its single-key envelope and returns
the flat ordered sequence. -/
theorem get_data_from_api_pagination {α : Type} (endpoint key : String)
    (call_api_fn : Option Nat → Page α) (t N : Nat) (u1 : List α)
    (u : Nat → List α)
    (hkey : endpointResource endpoint = some key)
    (ht : (call_api_fn none).meta.items_total = some t)
    (hN : (call_api_fn none).meta.items_page_total = N)
    (_hN2 : 2 ≤ N)
    (hne : (call_api_fn none).items ≠ [])
    (h1 : unwrapItems key (call_api_fn none).items = some u1)
    (hp : ∀ p ∈ List.range' 2 (N - 1),
      unwrapItems key (call_api_fn (some p)).items = some (u p)) :
    get_data_from_api endpoint call_api_fn
      = (.records (u1 ++ (List.range' 2 (N - 1)).flatMap u),
         none :: (List.range' 2 (N - 1)).map some)
    ∧ List.Pairwise (· < ·) (List.range' 2 (N - 1)) := by
  constructor
  · have hout : unwrapItems key ((call_api_fn none).items
        ++ (List.range' 2 (N - 1)).flatMap
             (fun p => (call_api_fn (some p)).items))
        = some (u1 ++ (List.range' 2 (N - 1)).flatMap u) :=
      unwrapItems_append key _ _ _ _ h1
        (unwrapItems_flatMap key _ u _ hp)
    rw [get_data_from_api, ht]
    simp only [hN]
    rw [if_neg (by simpa using hne)]
    simp only [hkey, hout]
  · exact List.pairwise_lt_range' 2 (N - 1) 1 (by omega)

/-- Witness for C1: a 2-page response of 5 wrapped items each, endpoint
`v2/appointment`; the flattened result has the 10 records in page/item
order, item 0 of page 2 sits at output index 5, and exactly one extra
request (page 2) was issued after the initial one. -/
theorem get_data_from_api_pagination_witness :
    get_data_from_api "v2/appointment"
      (fun p => match p with
        | none => ⟨⟨some 10, 2, 5⟩,
            [[("appointment", 0)], [("appointment", 1)], [("appointment", 2)],
             [("appointment", 3)], [("appointment", 4)]]⟩
        | some _ => ⟨⟨some 10, 2, 5⟩,
            [[("appointment", 5)], [("appointment", 6)], [("appointment", 7)],
             [("appointment", 8)], [("appointment", 9)]]⟩)
      = (.records [0, 1, 2, 3, 4, 5, 6, 7, 8, 9], [none, some 2])
    ∧ ([0, 1, 2, 3, 4, 5, 6, 7, 8, 9] : List Nat).length = 10
    ∧ ([0, 1, 2, 3, 4, 5, 6, 7, 8, 9] : List Nat)[5]? = some 5 := by
  have h := get_data_from_api_pagination "v2/appointment" "appointment"
    (fun p => match p with
      | none => ⟨⟨some 10, 2, 5⟩,
          [[("appointment", 0)], [("appointment", 1)], [("appointment", 2)],
           [("appointment", 3)], [("appointment", 4)]]⟩
      | some _ => ⟨⟨some 10, 2, 5⟩,
          [[("appointment", 5)], [("appointment", 6)], [("appointment", 7)],
           [("appointment", 8)], [("appointment", 9)]]⟩)
    10 2 [0, 1, 2, 3, 4] (fun _ => [5, 6, 7, 8, 9])
    (by decide) rfl rfl (by decide) (by decide) rfl
    (by intro p hp; rfl)
  refine ⟨?_, rfl, rfl⟩
  rw [h.1]
  rfl

/-- C5: `_get_data_from_api` returns the soft "no data" sentinel — not an
exception — when the first page lacks `items_total` or has an empty items
list, and in either case issues no further page requests (the request
trace is just the initial page-less request). -/
theorem get_data_from_api_no_data {α : Type} (endpoint : String)
    (call_api_fn : Option Nat → Page α) :
    ((call_api_fn none).meta.items_total = none →
      get_data_from_api endpoint call_api_fn = (.noData, [none]))
    ∧ ((call_api_fn none).items = [] →
      get_data_from_api endpoint call_api_fn = (.noData, [none])) := by
  constructor
  · intro h
    rw [get_data_from_api, h]
  · intro h
    cases ht : (call_api_fn none).meta.items_total with
    | none => rw [get_data_from_api, ht]
    | some t =>
        rw [get_data_from_api, ht]
        simp [h]

/-- Witness for C5: a response missing `items_total`, and a response whose
first page has an empty items list, both yield the sentinel with a
single-request trace. -/
theorem get_data_from_api_no_data_witness :
    get_data_from_api "v2/appointment"
      (fun _ => (⟨⟨none, 0, 0⟩, [[("appointment", 1)]]⟩ : Page Nat))
      = (.noData, [none])
    ∧ get_data_from_api "v2/appointment"
      (fun _ => (⟨⟨some 0, 1, 0⟩, []⟩ : Page Nat))
      = (.noData, [none]) := by
  constructor
  · exact (get_data_from_api_no_data "v2/appointment" _).1 rfl
  · exact (get_data_from_api_no_data "v2/appointment" _).2 rfl

/-! ## Claim theorems: parameter building -/

/-- Counterexample to C6 as stated: the input key `limit` does not keep its
original value — `{'limit': 5}` (a params dict with only scalar values)
comes back with `limit` overwritten to 200. -/
theorem build_params_limit_counterexample :
    dictGet "limit" [("limit", PyVal.int 5)] = some (.int 5)
    ∧ dictGet "limit" (build_params (some [("limit", PyVal.int 5)])).1
        = some (.int 200)
    ∧ PyVal.int 200 ≠ PyVal.int 5 := by
  refine ⟨rfl, rfl, by simp⟩

/-- C6 (amended): for params with only scalar values, `_build_params`
yields a parameter set containing `limit = 200` in which every key other
than `limit` maps to its original unaltered value; absent (`None`) params
yield exactly `{limit: 200}`. -/
theorem build_params_limit_and_preserves (p : PyDict)
    (hscalar : ∀ kv ∈ p, isScalar kv.2 = true) :
    dictGet "limit" (build_params (some p)).1 = some (.int 200)
    ∧ (∀ k, k ≠ "limit" → dictGet k (build_params (some p)).1 = dictGet k p)
    ∧ build_params none = ([("limit", .int 200)], none) := by
  refine ⟨?_, ?_, rfl⟩
  · rw [build_params]
    by_cases hp : p.isEmpty
    · simp [hp, dictGet_map_snd, dictGet, encodeParamValue]
    · simp only [hp, if_false, Bool.false_eq_true]
      rw [dictGet_map_snd, dictGet_setKey_self]
      rfl
  · intro k hk
    rw [build_params]
    by_cases hp : p.isEmpty
    · have : p = [] := List.isEmpty_iff.mp hp
      subst this
      simp [hp, dictGet_map_snd, dictGet, Ne.symm hk]
    · simp only [hp, if_false, Bool.false_eq_true]
      rw [dictGet_map_snd, dictGet_setKey_ne p "limit" k _ hk]
      cases hv : dictGet k p with
      | none => rfl
      | some v =>
          have hm := dictGet_mem p k v hv
          simp [encodeParamValue_scalar v (hscalar (k, v) hm)]

/-- Witness for C6 at a concrete scalar-only params dict `{'a': 1}`:
`limit` is added as 200, `a` keeps the value 1, and `None` params give
exactly `{limit: 200}`. -/
theorem build_params_limit_and_preserves_witness :
    dictGet "limit" (build_params (some [("a", PyVal.int 1)])).1
      = some (.int 200)
    ∧ dictGet "a" (build_params (some [("a", PyVal.int 1)])).1
      = dictGet "a" [("a", PyVal.int 1)]
    ∧ build_params none = ([("limit", .int 200)], none) := by
  have h := build_params_limit_and_preserves [("a", PyVal.int 1)]
    (by intro kv hkv; simp at hkv; rw [hkv]; rfl)
  exact ⟨h.1, h.2.1 "a" (by decide), h.2.2⟩

/-- Counterexample to C7 as stated: a list value under the input key
`limit` is not JSON-encoded into the parameter set — it is overwritten by
the integer 200, which is not the JSON string of anything. -/
theorem build_params_encodes_counterexample :
    dictGet "limit" [("limit", PyVal.list [])] = some (.list [])
    ∧ dictGet "limit" (build_params (some [("limit", PyVal.list [])])).1
        = some (.int 200)
    ∧ (∀ s : String, PyVal.int 200 ≠ PyVal.str s) := by
  refine ⟨rfl, rfl, fun s => by simp⟩

/-- C7 (amended): for every params mapping, the parameter set built by
`_build_params` maps every key other than `limit` whose input value is a
dict or a list to the JSON string encoding of that value, and every key
other than `limit` whose input value is a scalar to that value unchanged. -/
theorem build_params_encodes (p : PyDict) (k : String) (v : PyVal)
    (hk : k ≠ "limit") (hv : dictGet k p = some v) :
    dictGet k (build_params (some p)).1
      = some (if isScalar v then v else .str (jsonDumps v)) := by
  rw [build_params]
  by_cases hp : p.isEmpty
  · have : p = [] := List.isEmpty_iff.mp hp
    subst this
    simp [dictGet] at hv
  · simp only [hp, if_false, Bool.false_eq_true]
    rw [dictGet_map_snd, dictGet_setKey_ne p "limit" k _ hk, hv]
    simp [encodeParamValue_eq_ite]

/-- Witness for C7 at a concrete params dict holding a structured filter
`{'id': {'in': [1, 2]}}` and a scalar `'active': true`: the structured
value is JSON-encoded to a string, the scalar passes through. -/
theorem build_params_encodes_witness :
    dictGet "id" (build_params (some
        [("id", PyVal.dict [("in", PyVal.list [PyVal.int 1, PyVal.int 2])]),
         ("active", PyVal.bool true)])).1
      = some (.str (jsonDumps (PyVal.dict
          [("in", PyVal.list [PyVal.int 1, PyVal.int 2])])))
    ∧ dictGet "active" (build_params (some
        [("id", PyVal.dict [("in", PyVal.list [PyVal.int 1, PyVal.int 2])]),
         ("active", PyVal.bool true)])).1
      = some (.bool true) := by
  constructor
  · exact build_params_encodes _ "id"
      (PyVal.dict [("in", PyVal.list [PyVal.int 1, PyVal.int 2])])
      (by decide) rfl
  · exact build_params_encodes _ "active" (PyVal.bool true) (by decide) rfl

/-! ## Helper lemmas on chunking and the get_by_ids loop -/

theorem chunks100_flatten (ids : List Int) : (chunks100 ids).flatten = ids := by
  induction ids using chunks100.induct with
  | case1 l h =>
      rw [chunks100, if_pos h]
      simp only [List.flatten_nil]
      exact (List.isEmpty_iff.mp h).symm
  | case2 l h ih =>
      rw [chunks100, if_neg h, List.flatten_cons, ih, List.take_append_drop]

theorem chunks100_length_le (ids : List Int) :
    ∀ c ∈ chunks100 ids, c.length ≤ 100 := by
  induction ids using chunks100.induct with
  | case1 l h =>
      rw [chunks100, if_pos h]
      simp
  | case2 l h ih =>
      rw [chunks100, if_neg h]
      intro c hc
      rcases List.mem_cons.mp hc with hc | hc
      · subst hc
        exact List.length_take_le 100 l
      · exact ih c hc

theorem mergeIdParams_isEmpty_false (params : Option PyDict) (c : List Int) :
    (mergeIdParams params c).isEmpty = false := by
  cases params with
  | none => rfl
  | some p =>
      by_cases hp : p.isEmpty <;> simp [mergeIdParams, hp, setKey_isEmpty_false]

theorem mergeIdParams_mergeIdParams (params : Option PyDict) (c c' : List Int) :
    mergeIdParams (some (mergeIdParams params c)) c' = mergeIdParams params c' := by
  cases params with
  | none => rfl
  | some p =>
      by_cases hp : p.isEmpty
      · simp [mergeIdParams, hp, setKey]
      · simp [mergeIdParams, hp, setKey_isEmpty_false, setKey_setKey_self]

theorem getByIdsGo_fst {α : Type} (get : PyDict → List α)
    (cs : List (List Int)) (params : Option PyDict) :
    (getByIdsGo get cs params).1
      = cs.flatMap (fun c => get (mergeIdParams params c)) := by
  induction cs generalizing params with
  | nil => rfl
  | cons c rest ih =>
      rw [getByIdsGo, List.flatMap_cons, ih (some (mergeIdParams params c))]
      simp only [mergeIdParams_mergeIdParams]

theorem getByIdsGo_snd {α : Type} (get : PyDict → List α)
    (cs : List (List Int)) :
    ∀ (params : Option PyDict) (clast : List Int),
      cs.getLast? = some clast →
      (getByIdsGo get cs params).2 = some (mergeIdParams params clast) := by
  induction cs with
  | nil => intro params clast h; simp at h
  | cons c rest ih =>
      intro params clast h
      cases rest with
      | nil =>
          simp at h
          subst h
          rfl
      | cons c2 rest2 =>
          rw [List.getLast?_cons_cons] at h
          rw [getByIdsGo]
          rw [ih (some (mergeIdParams params c)) clast h,
            mergeIdParams_mergeIdParams]

/-! ## Claim theorems: batched retrieval, is_medical, caller mutation -/

/-- C8: `get_by_ids` partitions the ID list into consecutive chunks of at
most 100 preserving order (the chunks flatten back to the input), issues
one `get` call per chunk with the caller's params merged with an
`id: {'in': chunk}` filter, concatenates the chunk results in chunk order,
and treats a single int as a one-element list. -/
theorem get_by_ids_spec {α : Type} (ids : List Int) (params : Option PyDict)
    (get : PyDict → List α) :
    (get_by_ids (Sum.inr ids) params get).1
        = (chunks100 ids).flatMap (fun c => get (mergeIdParams params c))
    ∧ (chunks100 ids).flatten = ids
    ∧ (∀ c ∈ chunks100 ids, c.length ≤ 100)
    ∧ (∀ n : Int, (get_by_ids (Sum.inl n) params get).1
        = (get_by_ids (Sum.inr [n]) params get).1) := by
  refine ⟨?_, chunks100_flatten ids, chunks100_length_le ids, fun n => rfl⟩
  exact getByIdsGo_fst get (chunks100 ids) params

/-- Witness for C8 at the concrete ID list `[1, 2, 3]` (one chunk) with a
`get` that returns the params it was called with: one call is issued, its
params carry the `id` in-filter for the whole chunk, the chunks flatten to
the input and respect the 100 bound, and a single int behaves as a
one-element list. -/
theorem get_by_ids_spec_witness :
    (get_by_ids (Sum.inr [1, 2, 3]) none (fun q => [q])).1
      = [[("id", idInFilter [1, 2, 3])]]
    ∧ (chunks100 [1, 2, 3]).flatten = [1, 2, 3]
    ∧ (∀ c ∈ chunks100 [1, 2, 3], c.length ≤ 100)
    ∧ (get_by_ids (Sum.inl 5) none (fun q => [q])).1
      = (get_by_ids (Sum.inr [5]) none (fun q => [q])).1 := by
  have h := get_by_ids_spec [1, 2, 3] none (fun q => [q])
  refine ⟨?_, h.2.1, h.2.2.1, h.2.2.2 5⟩
  rw [h.1]
  have hc : chunks100 [1, 2, 3] = [[1, 2, 3]] := by simp [chunks100]
  rw [hc]
  rfl

/-- C9: `_create_is_medical_column` sets `is_medical` to 1 exactly on the
rows whose `appt_type_id` lies in the per-location medical-type allow-list
of the transform's `location_id`, and to 0 on every other row, leaving the
other fields untouched. -/
theorem create_is_medical_spec {α : Type} (location_id : Int)
    (rows : List (ApptRow α)) (allow : List Int)
    (h : dictGet location_id isMedicalTable = some allow) :
    create_is_medical_column location_id rows
      = some (rows.map fun r =>
          { r with is_medical := if r.appt_type_id ∈ allow then 1 else 0 }) := by
  rw [create_is_medical_column, h]
  simp only [List.map_map]
  refine congrArg some (List.map_congr_left fun r _ => ?_)
  by_cases hm : r.appt_type_id ∈ allow <;> simp [Function.comp, hm]

/-- Witness for C9 at location 2 with two concrete rows: type 18 (in the
allow-list) gets `is_medical = 1`, type 99 (not in it) gets 0, regardless
of the incoming `is_medical` values. -/
theorem create_is_medical_spec_witness :
    create_is_medical_column 2
      [(⟨18, 55, ()⟩ : ApptRow Unit), ⟨99, 77, ()⟩]
      = some [⟨18, 1, ()⟩, ⟨99, 0, ()⟩] := by
  rw [create_is_medical_spec 2 [⟨18, 55, ()⟩, ⟨99, 77, ()⟩]
    [18, 26, 27, 28, 31, 32, 33, 34, 35, 37, 39, 40, 41, 56, 59, 60] rfl]
  rfl

/-- Counterexample to C10 as stated: an empty params dict passed to `get`
is not mutated at all — after `_build_params` the caller still references
the empty dict, which has no `limit` key. -/
theorem caller_params_mutation_counterexample :
    (build_params (some ([] : PyDict))).2 = some []
    ∧ dictGet "limit" ([] : PyDict) = none := ⟨rfl, rfl⟩

/-- C10 (amended): the public client calls mutate caller-supplied
non-empty (truthy) mapping arguments in place, visibly to the caller, with
no copy taken: a non-empty params dict passed to `get` has `limit`
added/overwritten; a non-empty headers dict gains `Authorization`; a
non-empty params dict passed to `get_by_ids` (with at least one chunk)
gains `id` holding the last chunk's filter; and a params dict passed to
`get_date_range` — empty or not, since `params.update` mutates any dict —
gains the date-filter field key.  Falsy (`None` or empty) params/headers
dicts of `get` and `get_by_ids` are instead replaced by fresh dicts and
the caller's dict is left untouched. -/
theorem caller_params_mutation :
    (∀ p : PyDict, p.isEmpty = false →
        (build_params (some p)).2 = some (setKey p "limit" (.int 200))
        ∧ dictGet "limit" (setKey p "limit" (.int 200)) = some (.int 200))
    ∧ (∀ (h : PyDict) (tok : String), h.isEmpty = false →
        (set_headers tok (some h)).2
          = some (setKey h "Authorization" (.str ("Bearer " ++ tok)))
        ∧ dictGet "Authorization"
            (setKey h "Authorization" (.str ("Bearer " ++ tok)))
          = some (.str ("Bearer " ++ tok)))
    ∧ (∀ (α : Type) (p : PyDict) (ids clast : List Int)
          (get : PyDict → List α),
        p.isEmpty = false → (chunks100 ids).getLast? = some clast →
        (get_by_ids (Sum.inr ids) (some p) get).2
          = some (setKey p "id" (idInFilter clast))
        ∧ dictGet "id" (setKey p "id" (idInFilter clast))
          = some (idInFilter clast))
    ∧ (∀ (p : PyDict) (f : String) (sd ed : Option PyDateTime)
          (d : Option Int) (expr : DateExpr),
        build_date_filter f sd ed d = .ok (f, expr) →
        get_date_range_params f (some p) sd ed d
          = .ok (setKey p f (dateExprToVal expr),
                 some (setKey p f (dateExprToVal expr)))
        ∧ dictGet f (setKey p f (dateExprToVal expr))
          = some (dateExprToVal expr)) := by
  refine ⟨?_, ?_, ?_, ?_⟩
  · intro p hp
    refine ⟨?_, dictGet_setKey_self p "limit" _⟩
    rw [build_params]
    simp [hp]
  · intro h tok hh
    refine ⟨?_, dictGet_setKey_self h "Authorization" _⟩
    rw [set_headers]
    simp [hh]
  · intro α p ids clast get hp hlast
    refine ⟨?_, dictGet_setKey_self p "id" _⟩
    have hsnd := getByIdsGo_snd get (chunks100 ids) (some p) clast hlast
    simp [get_by_ids, hp, hsnd, mergeIdParams]
  · intro p f sd ed d expr hb
    refine ⟨?_, dictGet_setKey_self p f _⟩
    rw [get_date_range_params, hb]

/-- Witness for C10 at concrete dicts: `{'a': 1}` gains `limit`;
`{'X': 'y'}` gains the bearer Authorization header; `{'a': 1}` passed to
`get_by_ids` for IDs `[1, 2, 3]` gains the last (only) chunk's `id`
filter; an empty dict passed to `get_date_range` gains the
`modified_at` filter key. -/
theorem caller_params_mutation_witness :
    (build_params (some [("a", PyVal.int 1)])).2
      = some [("a", PyVal.int 1), ("limit", PyVal.int 200)]
    ∧ (set_headers "abc123" (some [("X", PyVal.str "y")])).2
      = some [("X", PyVal.str "y"), ("Authorization", PyVal.str "Bearer abc123")]
    ∧ (get_by_ids (Sum.inr [1, 2, 3]) (some [("a", PyVal.int 1)])
        (fun q => [q])).2
      = some [("a", PyVal.int 1), ("id", idInFilter [1, 2, 3])]
    ∧ get_date_range_params "modified_at" (some [])
        (some ⟨2021, 1, 1, 0, 0, 0⟩) none none
      = .ok ([("modified_at", PyVal.dict [("gt", PyVal.int 1609459200)])],
             some [("modified_at", PyVal.dict [("gt", PyVal.int 1609459200)])]) := by
  refine ⟨?_, ?_, ?_, ?_⟩
  · rw [(caller_params_mutation.1 [("a", PyVal.int 1)] rfl).1]
    rfl
  · rw [(caller_params_mutation.2.1 [("X", PyVal.str "y")] "abc123" rfl).1]
    rfl
  · rw [(caller_params_mutation.2.2.1 PyDict [("a", PyVal.int 1)] [1, 2, 3]
      [1, 2, 3] (fun q => [q]) rfl (by simp [chunks100])).1]
    rfl
  · rw [(caller_params_mutation.2.2.2 [] "modified_at"
      (some (PyDateTime.mk 2021 1 1 0 0 0)) none none
      (.gtOnly 1609459200) rfl).1]
    rfl

end EzyVet
